import Mathlib

/-!
Shallow embedding of the client-record program (src/lab1/Cl.py and
src/lab2/Cl2.py): the Client value object with its field validation, and the
file-backed repository operations of ClientRepJson (ClientRepYaml's methods
are textually identical for everything modelled here).  Persistence is
modelled as the list of serialized records the target file would hold after
the last write; a repository state carries the in-memory list self.clients
together with that file image.
-/

deriving instance DecidableEq for Except

namespace CLL

/-- Python strings, modelled as lists of characters. -/
abbrev Str := List Char

/-- Whitespace recognized by Python str.strip() (ASCII range, which covers
every string the program manipulates). -/
def pyIsSpace (c : Char) : Bool :=
  c == ' ' || c == '\t' || c == '\n' || c == '\r' || c == '\x0b' || c == '\x0c'

/-- value.strip(): drop leading and trailing whitespace. -/
def pyStrip (s : Str) : Str :=
  ((s.dropWhile pyIsSpace).reverse.dropWhile pyIsSpace).reverse

/-- value.replace(' ', ''): remove every space character (only the plain
space, exactly as the source writes it). -/
def removeSpaces (s : Str) : Str :=
  s.filter (fun c => c != ' ')

/-- str.isalpha(): true iff the string is nonempty and every character is a
letter (the program only ever feeds it ASCII, where Char.isAlpha agrees with
Python). -/
def pyIsAlpha (s : Str) : Bool :=
  !s.isEmpty && s.all Char.isAlpha

/-- Consume exactly n digits, returning the remaining characters. -/
def nDigits : Nat → Str → Option Str
  | 0, s => some s
  | _ + 1, [] => none
  | n + 1, c :: rest => if c.isDigit then nDigits n rest else none

/-- Full match of the phone pattern body: a plus sign, one to three digits,
then three groups of 3, 3 and 4 digits separated by dashes. -/
def phoneCore : Str → Bool
  | '+' :: r0 =>
    let d1 := r0.takeWhile Char.isDigit
    let r1 := r0.dropWhile Char.isDigit
    decide (1 ≤ d1.length) && decide (d1.length ≤ 3) &&
      (match r1 with
       | '-' :: r2 =>
         (match nDigits 3 r2 with
          | some ('-' :: r3) =>
            (match nDigits 3 r3 with
             | some ('-' :: r4) =>
               (match nDigits 4 r4 with
                | some [] => true
                | _ => false)
             | _ => false)
          | _ => false)
       | _ => false)
  | _ => false

/-- re.match with the anchored phone pattern: the Python dollar anchor also
accepts a single trailing newline. -/
def phoneAccepts (s : Str) : Bool :=
  phoneCore s ||
    (match s.getLast? with
     | some c => c == '\n' && phoneCore s.dropLast
     | none => false)

/-- A compiled regular expression: its source text (used verbatim in the
error message) and its matcher. -/
structure Pattern where
  text : String
  accepts : Str → Bool

/-- The one regex the sources use, for the phone field. -/
def phonePattern : Pattern :=
  ⟨"^\\+\\d\x7b1,3\x7d-\\d\x7b3\x7d-\\d\x7b3\x7d-\\d\x7b4\x7d$", phoneAccepts⟩

/-- data_string.split(delimiter) for a one-character delimiter (the sources
default to a comma); keeps empty fields, and an empty input yields one empty
field, exactly as in Python. -/
def pySplit (sep : Char) (s : Str) : List Str :=
  s.foldr
    (fun c acc =>
      match acc with
      | cur :: rest => if c == sep then [] :: cur :: rest else (c :: cur) :: rest
      | [] => [[c]])
    [[]]

/-- Python list slicing l[a:b] with step 1: a negative bound counts from the
end, then both bounds clip to the interval from 0 to the length. -/
def pySlice {α : Type} (l : List α) (a b : Int) : List α :=
  (l.take ((if b < 0 then max ((l.length : Int) + b) 0
            else min b (l.length : Int)).toNat)).drop
    ((if a < 0 then max ((l.length : Int) + a) 0
      else min a (l.length : Int)).toNat)

/-- max(list, default=0): 0 on the empty list, otherwise the maximum element
(which may be negative; the default only covers the empty case). -/
def pyMaxD0 : List Int → Int
  | [] => 0
  | x :: xs => xs.foldl max x

def fnSurname : String := "Surname"

def fnName : String := "Name"

def fnPatronymic : String := "Patronymic"

def fnAddress : String := "Address"

def fnPhone : String := "Phone"

/-- Client.validate_value (identical in lab1 Cl.py and lab2 Cl2.py): the
required check, then the letters-only check, then the regex check; the first
failing check raises ValueError with its message, otherwise the value is
returned as is. -/
def validate_value (value : Str) (field_name : String) (is_required : Bool)
    (only_letters : Bool) (regex : Option Pattern) : Except String Str :=
  if is_required && (pyStrip value).isEmpty then
    Except.error (field_name ++ " cannot be empty.")
  else if only_letters && !pyIsAlpha (removeSpaces value) then
    Except.error (field_name ++ " must contain only letters.")
  else
    match regex with
    | some p =>
      if !p.accepts value then
        Except.error (field_name ++ " is invalid. Expected format: " ++ p.text)
      else Except.ok value
    | none => Except.ok value

/-- The Client record of lab2 Cl2.py: five validated data fields plus the
repository-assigned identifier (None until a repository assigns one).  The
lab1 Client is the same value object without the identifier attribute. -/
structure Client where
  surname : Str
  name : Str
  patronymic : Str
  address : Str
  phone : Str
  client_id : Option Int
deriving DecidableEq

/-- Client.__init__: validates every field in order with the rules the source
hardcodes; any ValueError propagates, so construction is all-or-nothing.
client_id is stored exactly as given. -/
def mkClient (surname name patronymic address phone : Str)
    (client_id : Option Int) : Except String Client := do
  let s ← validate_value surname fnSurname true true none
  let n ← validate_value name fnName true true none
  let p ← validate_value patronymic fnPatronymic false true none
  let a ← validate_value address fnAddress true false none
  let ph ← validate_value phone fnPhone true false (some phonePattern)
  Except.ok (Client.mk s n p a ph client_id)

def wrongCountMsg : String :=
  "Data string must contain exactly 5 fields separated by the delimiter."

/-- The body of Client.from_string after the split: exactly five fields are
required before anything else; each field is stripped and validated in the
fixed order, then the constructor runs (re-validating, as in the source). -/
def fromFields : List Str → Except String Client
  | [f1, f2, f3, f4, f5] => do
    let v1 ← validate_value (pyStrip f1) fnSurname true true none
    let v2 ← validate_value (pyStrip f2) fnName true true none
    let v3 ← validate_value (pyStrip f3) fnPatronymic false true none
    let v4 ← validate_value (pyStrip f4) fnAddress true false none
    let v5 ← validate_value (pyStrip f5) fnPhone true false (some phonePattern)
    mkClient v1 v2 v3 v4 v5 none
  | _ => Except.error wrongCountMsg

/-- Client.from_string: split on the delimiter, require exactly five fields,
then validate and construct. -/
def from_string (data_string : Str) (delimiter : Char) : Except String Client :=
  fromFields (pySplit delimiter data_string)

/-- Client.__eq__ of lab1 Cl.py: equality compares exactly the five data
attributes the method body names.  Stated over the record type that carries
client_id (the richest variant of the record); the method body reads none of
the other attributes. -/
def clientEqPy (a b : Client) : Bool :=
  a.surname == b.surname && a.name == b.name && a.patronymic == b.patronymic &&
    a.address == b.address && a.phone == b.phone

/-- State of a file-backed repository: the in-memory list self.clients and
the serialized list currently sitting in the target file. -/
structure RepState where
  clients : List Client
  file : List Client
deriving DecidableEq

/-- ClientRepJson.get_new_client_id: one plus max(ids present in memory,
default 0), ignoring records whose identifier is still None. -/
def get_new_client_id (clients : List Client) : Int :=
  pyMaxD0 (clients.filterMap Client.client_id) + 1

/-- ClientRepJson.save_all: serialize every in-memory record; a record whose
identifier is still None gets get_new_client_id() written into the file (the
in-memory record keeps None).  Only the file image changes. -/
def save_all (s : RepState) : RepState :=
  RepState.mk s.clients
    (s.clients.map (fun c =>
      if c.client_id == none then
        Client.mk c.surname c.name c.patronymic c.address c.phone
          (some (get_new_client_id s.clients))
      else c))

def notFoundMsg (cid : Int) : String :=
  "Client with ID " ++ toString cid ++ " not found"

/-- ClientRepJson.get_by_id: first record whose identifier equals the
argument, else ValueError "not found". -/
def get_by_id (s : RepState) (cid : Int) : Except String Client :=
  match s.clients.find? (fun c => c.client_id == some cid) with
  | some c => Except.ok c
  | none => Except.error (notFoundMsg cid)

/-- ClientRepJson.get_k_n_short_list: self.clients[(k-1)*n : (k-1)*n + n]
with Python slice semantics. -/
def get_k_n_short_list (s : RepState) (k n : Int) : List Client :=
  pySlice s.clients ((k - 1) * n) ((k - 1) * n + n)

/-- Lines 138-140 of ClientRepJson.add_client: the new identifier is computed
from the current collection, the record is constructed carrying it and
appended; save_all has not run yet.  A ValueError from the constructor
propagates and leaves the state untouched. -/
def add_client_mem (s : RepState) (surname name patronymic address phone : Str) :
    Except String RepState :=
  (mkClient surname name patronymic address phone
      (some (get_new_client_id s.clients))).map
    (fun c => RepState.mk (s.clients ++ [c]) s.file)

/-- ClientRepJson.add_client: compute the id, construct, append, then
save_all (line 141). -/
def add_client (s : RepState) (surname name patronymic address phone : Str) :
    Except String RepState :=
  (add_client_mem s surname name patronymic address phone).map save_all

/-- Modelled from the spec: the identifier-assignment policy the spec claims,
under which addClient appends the new record without an identifier and the
identifier is only computed at save time (save_all fills it into the file for
records still missing one).  Defined solely to compare against add_client. -/
def add_client_specSaveTime (s : RepState)
    (surname name patronymic address phone : Str) : Except String RepState :=
  (mkClient surname name patronymic address phone none).map
    (fun c => save_all (RepState.mk (s.clients ++ [c]) s.file))

/-- The loop body of ClientRepJson.replace_by_id: replace the first record
whose identifier matches, keeping every other record in place; none when no
record matches. -/
def replaceFirst (cid : Int) (nc : Client) : List Client → Option (List Client)
  | [] => none
  | c :: rest =>
    if c.client_id == some cid then some (nc :: rest)
    else (replaceFirst cid nc rest).map (c :: ·)

/-- ClientRepJson.replace_by_id: on a match, substitute in place, save_all and
return True; otherwise return False without touching anything. -/
def replace_by_id (s : RepState) (cid : Int) (nc : Client) : RepState × Bool :=
  match replaceFirst cid nc s.clients with
  | some l => (save_all (RepState.mk l s.file), true)
  | none => (s, false)

/-- ClientRepJson.delete_by_id: keep exactly the records whose identifier
differs from the argument, then save_all; never raises. -/
def delete_by_id (s : RepState) (cid : Int) : RepState :=
  save_all (RepState.mk
    (s.clients.filter (fun c => c.client_id != some cid)) s.file)

/-- ClientRepJson.get_count. -/
def get_count (s : RepState) : Nat :=
  s.clients.length

/-- A freshly constructed repository over a missing file: empty collection,
empty file image. -/
def emptyRep : RepState :=
  RepState.mk [] []

def ivS : Str := "Ivanov".toList

def ivN : Str := "Ivan".toList

def ivP : Str := "Ivanovich".toList

def ivA : Str := "Main St 1".toList

def ivPh : Str := "+1-555-123-4567".toList

/-- One addClient call with the fixed valid field tuple of the add-get
scenario. -/
def addIv (s : RepState) : Except String RepState :=
  add_client s ivS ivN ivP ivA ivPh

/-- n sequential addClient calls starting from the empty repository. -/
def addN : Nat → Except String RepState
  | 0 => Except.ok emptyRep
  | n + 1 => (addN n).bind addIv

/-- The identifiers 1..n. -/
def idsTo (n : Nat) : List Int :=
  (List.range n).map (fun i : Nat => (i : Int) + 1)

/-- The collection addN n produces: the fixed record with identifiers 1..n. -/
def ivClients (n : Nat) : List Client :=
  (List.range n).map
    (fun i : Nat => Client.mk ivS ivN ivP ivA ivPh (some ((i : Int) + 1)))

/-- A record with the fixed fields and a chosen identifier. -/
def cFix (i : Int) : Client :=
  Client.mk ivS ivN ivP ivA ivPh (some i)

/-- A five-record repository state with identifiers 1..5. -/
def rep5 : RepState :=
  RepState.mk [cFix 1, cFix 2, cFix 3, cFix 4, cFix 5]
    [cFix 1, cFix 2, cFix 3, cFix 4, cFix 5]

/-- A letters-only value with leading, interior and trailing spaces. -/
def spacedStr : Str := " Anna Maria ".toList

/-- A replacement record used to exercise replace_by_id. -/
def nc0 : Client := Client.mk ivS ivN ivP ivA ivPh (some 99)

theorem le_foldl_max (l : List Int) (b : Int) : b ≤ l.foldl max b := by
  induction l generalizing b with
  | nil => exact le_refl b
  | cons x xs ih => exact le_trans (le_max_left b x) (ih (max b x))

theorem mem_le_foldl_max (l : List Int) (b : Int) : ∀ x ∈ l, x ≤ l.foldl max b := by
  induction l generalizing b with
  | nil => intro x hx; cases hx
  | cons y ys ih =>
    intro x hx
    rcases List.mem_cons.mp hx with h | h
    · subst h; exact le_trans (le_max_right b x) (le_foldl_max ys (max b x))
    · exact ih (max b y) x h

theorem mem_le_pyMaxD0 (l : List Int) : ∀ x ∈ l, x ≤ pyMaxD0 l := by
  cases l with
  | nil => intro x hx; cases hx
  | cons a as =>
    intro x hx
    rcases List.mem_cons.mp hx with h | h
    · subst h; exact le_foldl_max as x
    · exact mem_le_foldl_max as a x h

theorem pyMaxD0_append_single (l : List Int) (x : Int) (hx : 0 ≤ x) :
    pyMaxD0 (l ++ [x]) = max (pyMaxD0 l) x := by
  cases l with
  | nil =>
    simp only [List.nil_append, pyMaxD0, List.foldl_nil]
    exact (max_eq_right hx).symm
  | cons a as =>
    show (as ++ [x]).foldl max a = max (as.foldl max a) x
    rw [List.foldl_append]
    rfl

theorem idsTo_succ (n : Nat) : idsTo (n + 1) = idsTo n ++ [(n : Int) + 1] := by
  simp [idsTo, List.range_succ]

theorem pyMaxD0_idsTo (n : Nat) : pyMaxD0 (idsTo n) = n := by
  induction n with
  | zero => rfl
  | succ m ih =>
    rw [idsTo_succ, pyMaxD0_append_single _ _ (by omega), ih]
    push_cast
    exact max_eq_right (by omega)

theorem filterMap_client_id_of_map_some (l : List Client) (v : List Int)
    (h : l.map Client.client_id = v.map some) :
    l.filterMap Client.client_id = v := by
  induction l generalizing v with
  | nil => cases v with | nil => rfl | cons _ _ => simp at h
  | cons c cs ih =>
    cases v with
    | nil => simp at h
    | cons i is =>
      simp only [List.map_cons, List.cons.injEq] at h
      obtain ⟨h1, h2⟩ := h
      simp [List.filterMap_cons, h1, ih is h2]

theorem ivClients_map_id (n : Nat) :
    (ivClients n).map Client.client_id = (idsTo n).map some := by
  simp only [ivClients, idsTo, List.map_map]
  rfl

theorem get_new_ivClients (n : Nat) :
    get_new_client_id (ivClients n) = (n : Int) + 1 := by
  unfold get_new_client_id
  rw [filterMap_client_id_of_map_some _ (idsTo n) (ivClients_map_id n), pyMaxD0_idsTo]

theorem mkClient_iv (cid : Option Int) :
    mkClient ivS ivN ivP ivA ivPh cid
      = Except.ok (Client.mk ivS ivN ivP ivA ivPh cid) := rfl

theorem map_if_none_eq_self (g : Client → Client) (l : List Client)
    (h : ∀ c ∈ l, c.client_id ≠ none) :
    l.map (fun c => if c.client_id == none then g c else c) = l := by
  induction l with
  | nil => rfl
  | cons c cs ih =>
    have hne := h c (List.mem_cons_self c cs)
    rw [List.map_cons, ih (fun x hx => h x (List.mem_cons_of_mem c hx))]
    cases hcid : c.client_id with
    | none => exact absurd hcid hne
    | some v => simp [hcid]

theorem save_all_of_no_none (clients f : List Client)
    (h : ∀ c ∈ clients, c.client_id ≠ none) :
    save_all (RepState.mk clients f) = RepState.mk clients clients := by
  unfold save_all
  congr 1
  exact map_if_none_eq_self _ clients h

theorem ivClients_no_none (n : Nat) : ∀ c ∈ ivClients n, c.client_id ≠ none := by
  intro c hc
  simp only [ivClients, List.mem_map] at hc
  obtain ⟨i, _, rfl⟩ := hc
  simp

theorem ivClients_succ (n : Nat) :
    ivClients (n + 1)
      = ivClients n ++ [Client.mk ivS ivN ivP ivA ivPh (some ((n : Int) + 1))] := by
  simp [ivClients, List.range_succ]

theorem addN_eq (n : Nat) :
    addN n = Except.ok (RepState.mk (ivClients n) (ivClients n)) := by
  induction n with
  | zero => rfl
  | succ m ih =>
    show (addN m).bind addIv = _
    rw [ih]
    show addIv (RepState.mk (ivClients m) (ivClients m)) = _
    unfold addIv add_client add_client_mem
    rw [get_new_ivClients, mkClient_iv]
    show Except.ok (save_all (RepState.mk
        (ivClients m ++ [Client.mk ivS ivN ivP ivA ivPh (some ((m : Int) + 1))])
        (ivClients m))) = _
    rw [← ivClients_succ, save_all_of_no_none _ _ (ivClients_no_none (m + 1))]

/-- C1, counterexample: identifiers ARE reused.  Two addClient calls from the
empty repository assign identifiers 1 and 2; after deleteById of the record
holding the maximum identifier 2, the next addClient hands out 2 again, so
the collection again reads [some 1, some 2] — the identifier of the deleted
record was reassigned to a later record, contrary to the claim. -/
theorem c1_counterexample :
    ((addN 2).bind (fun s2 => add_client (delete_by_id s2 2) ivS ivN ivP ivA ivPh)).map
        (fun s => s.clients.map Client.client_id) = Except.ok [some 1, some 2]
    ∧ (addN 2).map (fun s => s.clients.map Client.client_id)
        = Except.ok [some 1, some 2] :=
  ⟨by decide, by decide⟩

/-- C1 (amended): the identifier a repository hands out next is strictly
greater than every identifier currently present in the collection, so two
records never collide at assignment time; but identifiers are not
never-reused: after deleteById of the record holding the maximum identifier,
a subsequent addClient can hand out that same identifier again (two adds,
delete id 2, then get_new_client_id yields 2 once more). -/
theorem c1_fresh_ids_but_reuse_after_delete :
    (∀ (s : RepState) (i : Int), (∃ c ∈ s.clients, c.client_id = some i) →
        i < get_new_client_id s.clients)
    ∧ (addN 2).map (fun s => get_new_client_id (delete_by_id s 2).clients)
        = Except.ok 2 := by
  constructor
  · rintro s i ⟨c, hc, hid⟩
    have hmem : i ∈ s.clients.filterMap Client.client_id :=
      List.mem_filterMap.mpr ⟨c, hc, hid⟩
    have hle := mem_le_pyMaxD0 _ i hmem
    unfold get_new_client_id
    omega
  · decide

/-- C1 witness: in the five-record state with identifiers 1..5, the present
identifier 2 is strictly below the next identifier to be assigned. -/
theorem c1_witness : (2 : Int) < get_new_client_id rep5.clients :=
  c1_fresh_ids_but_reuse_after_delete.1 rep5 2 (by decide)

/-- C2, counterexample: the identifier is computed at add time, not at save
time.  Already after the append step of add_client (lines 138-140, before
save_all runs) the in-memory record carries identifier 1; under the
save-time policy the spec describes (modelled by add_client_specSaveTime)
the in-memory record would still carry None even after the full call, since
save_all only writes identifiers into the file image. -/
theorem c2_counterexample :
    (add_client_mem emptyRep ivS ivN ivP ivA ivPh).map
        (fun s => s.clients.map Client.client_id) = Except.ok [some 1]
    ∧ (add_client_specSaveTime emptyRep ivS ivN ivP ivA ivPh).map
        (fun s => s.clients.map Client.client_id) = Except.ok [none]
    ∧ (add_client emptyRep ivS ivN ivP ivA ivPh).map
        (fun s => s.clients.map Client.client_id) = Except.ok [some 1] :=
  ⟨by decide, by decide, by decide⟩

/-- C2 (amended): the identifier given to a newly added record equals
1 + max(existing identifiers, default 0), computed at add time — the record
is appended already carrying it, before save_all runs; consequently, after N
sequential addClient calls starting from the empty repository, the assigned
identifiers are exactly 1..N in assignment order and pairwise distinct. -/
theorem c2_ids_one_to_n_assigned_at_add_time :
    (∀ n : Nat, (addN n).map (fun s => s.clients.map Client.client_id)
        = Except.ok ((idsTo n).map some))
    ∧ (∀ (n : Nat) (s : RepState), addN n = Except.ok s →
        (s.clients.map Client.client_id).Nodup)
    ∧ (∀ s : RepState, add_client_mem s ivS ivN ivP ivA ivPh
        = Except.ok (RepState.mk
            (s.clients ++ [Client.mk ivS ivN ivP ivA ivPh
              (some (get_new_client_id s.clients))]) s.file)) := by
  refine ⟨?_, ?_, ?_⟩
  · intro n
    rw [addN_eq]
    show Except.ok ((ivClients n).map Client.client_id) = _
    rw [ivClients_map_id]
  · intro n s h
    rw [addN_eq] at h
    injection h with h
    subst h
    show ((ivClients n).map Client.client_id).Nodup
    rw [ivClients_map_id]
    have h0 : Function.Injective (fun i : Nat => (i : Int) + 1) := by
      intro a b hab
      have hab' : (a : Int) + 1 = (b : Int) + 1 := hab
      omega
    have h1 : (idsTo n).Nodup := by
      unfold idsTo
      exact List.Nodup.map h0 (List.nodup_range n)
    exact h1.map (fun a b hab => by injection hab)
  · intro s
    unfold add_client_mem
    rw [mkClient_iv]
    rfl

/-- C2 witness: three sequential adds from the empty repository, identifiers
[1, 2, 3], pairwise distinct. -/
theorem c2_witness :
    addN 3 = Except.ok (RepState.mk (ivClients 3) (ivClients 3))
    ∧ ((RepState.mk (ivClients 3) (ivClients 3)).clients.map Client.client_id).Nodup :=
  ⟨by decide, c2_ids_one_to_n_assigned_at_add_time.2.1 3 _ (by decide)⟩

theorem slice_clip {α : Type} (l : List α) (a n : Nat) :
    (l.take (min (a + n) l.length)).drop (min a l.length) = (l.drop a).take n := by
  rcases le_or_lt a l.length with h | h
  · rw [Nat.min_eq_left h]
    rcases le_or_lt (a + n) l.length with h2 | h2
    · rw [Nat.min_eq_left h2, ← List.take_drop]
    · rw [Nat.min_eq_right (Nat.le_of_lt h2), List.take_length,
        List.take_of_length_le (by rw [List.length_drop]; omega)]
  · rw [Nat.min_eq_right (Nat.le_of_lt h),
      List.drop_eq_nil_iff.mpr (Nat.le_of_lt h), List.take_nil]
    apply List.drop_eq_nil_iff.mpr
    rw [List.length_take]
    omega

theorem pySlice_ofNat {α : Type} (l : List α) (a n : Nat) :
    pySlice l (a : Int) ((a : Int) + (n : Int)) = (l.drop a).take n := by
  unfold pySlice
  rw [if_neg (by omega), if_neg (by omega)]
  have h1 : (min (a : Int) ((l.length : Nat) : Int)).toNat = min a l.length := by
    omega
  have h2 : (min ((a : Int) + (n : Int)) ((l.length : Nat) : Int)).toNat
      = min (a + n) l.length := by
    omega
  rw [h1, h2]
  exact slice_clip l a n

theorem get_page_eq (s : RepState) (k n : Nat) (hk : 1 ≤ k) :
    get_k_n_short_list s (k : Int) (n : Int)
      = (s.clients.drop ((k - 1) * n)).take n := by
  unfold get_k_n_short_list
  have h1 : (((k - 1) * n : Nat) : Int) = ((k : Int) - 1) * (n : Int) := by
    push_cast [Nat.cast_sub hk]
    ring
  rw [← h1, pySlice_ofNat]

theorem pages_concat (s : RepState) (n K : Nat) :
    ((List.range K).map
        (fun i : Nat => get_k_n_short_list s ((i + 1 : Nat) : Int) (n : Int))).flatten
      = s.clients.take (K * n) := by
  induction K with
  | zero => rw [Nat.zero_mul]; rfl
  | succ m ih =>
    rw [List.range_succ, List.map_append, List.flatten_append, ih]
    simp only [List.map_cons, List.map_nil, List.flatten_cons, List.flatten_nil,
      List.append_nil]
    rw [get_page_eq s (m + 1) n (by omega)]
    simp only [Nat.add_sub_cancel]
    rw [Nat.succ_mul, List.take_add]

/-- C3, counterexample: an out-of-range page request does not always return
an empty sequence.  On the five-record state, getPage(-1, 2) — page number -1
is out of range for 1-indexed pages — returns the two records at positions 2
and 3, because Python slice indices count from the end when negative. -/
theorem c3_counterexample :
    get_k_n_short_list rep5 (-1) 2 = [cFix 2, cFix 3]
    ∧ get_k_n_short_list rep5 (-1) 2 ≠ [] :=
  ⟨by decide, by decide⟩

/-- C3 (amended): for every repository state and every page request with
pageNumber ≥ 1, getPage(pageNumber, pageSize) returns exactly the slice
[(pageNumber-1)*pageSize, pageNumber*pageSize) of the current ordering
clipped to the available records; a page starting at or past the end returns
the empty sequence; and concatenating getPage(k, n) for k = 1, 2, ... over
enough pages to cover the collection reconstructs the full current ordering
with no gaps or duplicates.  (Page requests with pageNumber ≤ 0 instead
follow Python negative-slice semantics and can return a nonempty slice.) -/
theorem c3_pagination :
    (∀ (s : RepState) (k n : Nat), 1 ≤ k →
        get_k_n_short_list s (k : Int) (n : Int)
          = (s.clients.drop ((k - 1) * n)).take n)
    ∧ (∀ (s : RepState) (k n : Nat), 1 ≤ k → s.clients.length ≤ (k - 1) * n →
        get_k_n_short_list s (k : Int) (n : Int) = [])
    ∧ (∀ (s : RepState) (n K : Nat), s.clients.length ≤ K * n →
        ((List.range K).map
            (fun i : Nat => get_k_n_short_list s ((i + 1 : Nat) : Int) (n : Int))).flatten
          = s.clients) := by
  refine ⟨fun s k n hk => get_page_eq s k n hk, ?_, ?_⟩
  · intro s k n hk hlen
    rw [get_page_eq s k n hk, List.drop_eq_nil_iff.mpr hlen, List.take_nil]
  · intro s n K hlen
    rw [pages_concat, List.take_of_length_le hlen]

/-- C3 witness: on the five-record state, the pages of size 2 numbered 1..3
concatenate back to the whole collection. -/
theorem c3_witness :
    ((List.range 3).map
        (fun i : Nat => get_k_n_short_list rep5 ((i + 1 : Nat) : Int) ((2 : Nat) : Int))).flatten
      = rep5.clients :=
  c3_pagination.2.2 rep5 2 3 (by decide)

theorem replaceFirst_none (cid : Int) (nc : Client) (l : List Client)
    (h : ∀ c ∈ l, c.client_id ≠ some cid) : replaceFirst cid nc l = none := by
  induction l with
  | nil => rfl
  | cons c cs ih =>
    have hc : (c.client_id == some cid) = false :=
      beq_eq_false_iff_ne.mpr (h c (List.mem_cons_self c cs))
    simp [replaceFirst, hc, ih (fun x hx => h x (List.mem_cons_of_mem c hx))]

theorem replaceFirst_found (cid : Int) (nc : Client) :
    ∀ (l1 : List Client) (c : Client) (l2 : List Client),
      (∀ x ∈ l1, x.client_id ≠ some cid) → c.client_id = some cid →
      replaceFirst cid nc (l1 ++ c :: l2) = some (l1 ++ nc :: l2) := by
  intro l1
  induction l1 with
  | nil =>
    intro c l2 _ hc
    have hc' : (c.client_id == some cid) = true := beq_iff_eq.mpr hc
    simp [replaceFirst, hc']
  | cons a as ih =>
    intro c l2 h1 hc
    have ha : (a.client_id == some cid) = false :=
      beq_eq_false_iff_ne.mpr (h1 a (List.mem_cons_self a as))
    simp only [List.cons_append, replaceFirst, ha, Bool.false_eq_true, if_false,
      List.append_eq]
    rw [ih c l2 (fun x hx => h1 x (List.mem_cons_of_mem a hx)) hc]
    rfl

/-- C4: replaceById with a record carrying the requested identifier
substitutes the new record at the first matching record's position, leaving
every other record and its position unchanged, runs save_all on the result
and returns true; with no matching identifier it returns false and performs
nothing at all — neither the collection nor the file image changes, and no
failure is raised (the outcome is the boolean). -/
theorem c4_replace_by_id :
    (∀ (s : RepState) (cid : Int) (nc : Client),
        (∀ c ∈ s.clients, c.client_id ≠ some cid) →
        replace_by_id s cid nc = (s, false))
    ∧ (∀ (s : RepState) (cid : Int) (nc : Client) (l1 : List Client) (c : Client)
          (l2 : List Client),
        s.clients = l1 ++ c :: l2 →
        (∀ x ∈ l1, x.client_id ≠ some cid) →
        c.client_id = some cid →
        replace_by_id s cid nc
          = (save_all (RepState.mk (l1 ++ nc :: l2) s.file), true)) := by
  constructor
  · intro s cid nc h
    unfold replace_by_id
    rw [replaceFirst_none cid nc s.clients h]
  · intro s cid nc l1 c l2 hsplit h1 hc
    unfold replace_by_id
    rw [hsplit, replaceFirst_found cid nc l1 c l2 h1 hc]

/-- C4 witness: replacing identifier 3 in the five-record state substitutes
at position 3 (records 1, 2, 4, 5 untouched) and reports true. -/
theorem c4_witness :
    replace_by_id rep5 3 nc0
      = (save_all (RepState.mk ([cFix 1, cFix 2] ++ nc0 :: [cFix 4, cFix 5]) rep5.file),
         true) :=
  c4_replace_by_id.2 rep5 3 nc0 [cFix 1, cFix 2] (cFix 3) [cFix 4, cFix 5]
    (by decide) (by decide) (by decide)

/-- C5: deleteById removes every record whose identifier equals the argument,
keeps the remaining records in their relative order (the result is a sublist
of the original collection containing every non-matching record), and never
raises; when no record carries the identifier the collection is left exactly
unchanged. -/
theorem c5_delete_by_id :
    (∀ (s : RepState) (cid : Int) (c : Client),
        c ∈ (delete_by_id s cid).clients → c.client_id ≠ some cid)
    ∧ (∀ (s : RepState) (cid : Int),
        (delete_by_id s cid).clients.Sublist s.clients)
    ∧ (∀ (s : RepState) (cid : Int) (c : Client),
        c ∈ s.clients → c.client_id ≠ some cid →
        c ∈ (delete_by_id s cid).clients)
    ∧ (∀ (s : RepState) (cid : Int),
        (∀ c ∈ s.clients, c.client_id ≠ some cid) →
        (delete_by_id s cid).clients = s.clients) := by
  refine ⟨?_, ?_, ?_, ?_⟩
  · intro s cid c hc
    have hc' : c ∈ s.clients.filter (fun c => c.client_id != some cid) := hc
    exact bne_iff_ne.mp (List.mem_filter.mp hc').2
  · intro s cid
    show (s.clients.filter (fun c => c.client_id != some cid)).Sublist s.clients
    exact List.filter_sublist s.clients
  · intro s cid c hmem hne
    show c ∈ s.clients.filter (fun c => c.client_id != some cid)
    exact List.mem_filter.mpr ⟨hmem, bne_iff_ne.mpr hne⟩
  · intro s cid h
    show s.clients.filter (fun c => c.client_id != some cid) = s.clients
    exact List.filter_eq_self.mpr (fun c hc => bne_iff_ne.mpr (h c hc))

/-- C5 witness: deleting the absent identifier 9999 from the five-record
state leaves the collection unchanged. -/
theorem c5_witness : (delete_by_id rep5 9999).clients = rep5.clients :=
  c5_delete_by_id.2.2.2 rep5 9999 (by decide)

/-- C6: the three checks of validate_value run in the fixed order required,
then letters-only, then pattern; validation succeeds (returning the value)
iff every active check passes, and on failure the reported message is that of
the first failing check in this order: the empty-field message whenever the
required check fails, the letters-only message whenever the required check
passes but the letters check fails, and the pattern message only when both
earlier checks pass. -/
theorem c6_validate_value_check_order :
    (∀ (v : Str) (fn : String) (req letters : Bool) (rx : Option Pattern),
        validate_value v fn req letters rx = Except.ok v ↔
          ((req = true → (pyStrip v).isEmpty = false)
            ∧ (letters = true → pyIsAlpha (removeSpaces v) = true)
            ∧ (∀ p : Pattern, rx = some p → p.accepts v = true)))
    ∧ (∀ (v : Str) (fn : String) (req letters : Bool) (rx : Option Pattern),
        req = true → (pyStrip v).isEmpty = true →
        validate_value v fn req letters rx
          = Except.error (fn ++ " cannot be empty."))
    ∧ (∀ (v : Str) (fn : String) (req letters : Bool) (rx : Option Pattern),
        (req = true → (pyStrip v).isEmpty = false) →
        letters = true → pyIsAlpha (removeSpaces v) = false →
        validate_value v fn req letters rx
          = Except.error (fn ++ " must contain only letters."))
    ∧ (∀ (v : Str) (fn : String) (req letters : Bool) (p : Pattern),
        (req = true → (pyStrip v).isEmpty = false) →
        (letters = true → pyIsAlpha (removeSpaces v) = true) →
        p.accepts v = false →
        validate_value v fn req letters (some p)
          = Except.error (fn ++ " is invalid. Expected format: " ++ p.text)) := by
  refine ⟨?_, ?_, ?_, ?_⟩
  · intro v fn req letters rx
    rcases rx with _ | p <;>
      cases req <;> cases letters <;>
      cases he : (pyStrip v).isEmpty <;>
      cases hal : pyIsAlpha (removeSpaces v) <;>
      (try cases hac : p.accepts v) <;>
      simp_all [validate_value]
  · intro v fn req letters rx hreq hemp
    subst hreq
    simp [validate_value, hemp]
  · intro v fn req letters rx hne hlet hal
    subst hlet
    have h1 : (req && (pyStrip v).isEmpty) = false := by
      cases req
      · rfl
      · rw [hne rfl]
        rfl
    simp [validate_value, h1, hal]
  · intro v fn req letters p hne halpha hacc
    have h1 : (req && (pyStrip v).isEmpty) = false := by
      cases req
      · rfl
      · rw [hne rfl]
        rfl
    have h2 : (letters && !pyIsAlpha (removeSpaces v)) = false := by
      cases letters
      · rfl
      · rw [halpha rfl]
        rfl
    simp [validate_value, h1, h2, hacc]

/-- C6 witness: a whitespace-only required letters-only value fails with the
empty-field message, not the letters-only message — the required check is
reported first. -/
theorem c6_witness :
    validate_value ("   ".toList) fnSurname true true none
      = Except.error (fnSurname ++ " cannot be empty.") :=
  c6_validate_value_check_order.2.1 ("   ".toList) fnSurname true true none
    rfl (by decide)

/-- Any successful validate_value returns its argument exactly unchanged. -/
theorem validate_value_ok (v : Str) (fn : String) (req letters : Bool)
    (rx : Option Pattern) (w : Str)
    (h : validate_value v fn req letters rx = Except.ok w) : w = v := by
  rcases rx with _ | p <;>
    simp only [validate_value] at h <;>
    split_ifs at h <;>
    first
      | exact Except.noConfusion h
      | exact (Except.ok.inj h).symm

/-- A successful constructor call stores each input field verbatim. -/
theorem mkClient_ok (a b c d e : Str) (i : Option Int) (cl : Client)
    (h : mkClient a b c d e i = Except.ok cl) : cl = Client.mk a b c d e i := by
  unfold mkClient at h
  cases h1 : validate_value a fnSurname true true none with
  | error m => rw [h1] at h; exact Except.noConfusion (show Except.error m = Except.ok cl from h)
  | ok v1 =>
    obtain rfl := (validate_value_ok _ _ _ _ _ _ h1).symm
    rw [h1] at h
    cases h2 : validate_value b fnName true true none with
    | error m => rw [h2] at h; exact Except.noConfusion (show Except.error m = Except.ok cl from h)
    | ok v2 =>
      obtain rfl := (validate_value_ok _ _ _ _ _ _ h2).symm
      rw [h2] at h
      cases h3 : validate_value c fnPatronymic false true none with
      | error m => rw [h3] at h; exact Except.noConfusion (show Except.error m = Except.ok cl from h)
      | ok v3 =>
        obtain rfl := (validate_value_ok _ _ _ _ _ _ h3).symm
        rw [h3] at h
        cases h4 : validate_value d fnAddress true false none with
        | error m => rw [h4] at h; exact Except.noConfusion (show Except.error m = Except.ok cl from h)
        | ok v4 =>
          obtain rfl := (validate_value_ok _ _ _ _ _ _ h4).symm
          rw [h4] at h
          cases h5 : validate_value e fnPhone true false (some phonePattern) with
          | error m => rw [h5] at h; exact Except.noConfusion (show Except.error m = Except.ok cl from h)
          | ok v5 =>
            obtain rfl := (validate_value_ok _ _ _ _ _ _ h5).symm
            rw [h5] at h
            have h' : Except.ok (Client.mk a b c d e i) = Except.ok cl := h
            exact (Except.ok.inj h').symm

/-- C7: getById fails with the "not found" error exactly when no record
carries the requested identifier; when it succeeds, the returned record is a
member of the collection and carries that identifier.  In the add-get
scenario, addClient of the five concrete fields on the empty repository
followed by getById at the identifier assigned by that call returns a record
whose five data fields are exactly those inputs. -/
theorem c7_get_by_id :
    (∀ (s : RepState) (cid : Int),
        get_by_id s cid = Except.error (notFoundMsg cid) ↔
          ∀ c ∈ s.clients, c.client_id ≠ some cid)
    ∧ (∀ (s : RepState) (cid : Int) (c : Client),
        get_by_id s cid = Except.ok c → c ∈ s.clients ∧ c.client_id = some cid)
    ∧ ((addIv emptyRep).bind
          (fun s1 => get_by_id s1 (get_new_client_id emptyRep.clients))
        = Except.ok (Client.mk ivS ivN ivP ivA ivPh
            (some (get_new_client_id emptyRep.clients)))) := by
  refine ⟨?_, ?_, ?_⟩
  · intro s cid
    cases hf : s.clients.find? (fun c => c.client_id == some cid) with
    | some c =>
      constructor
      · intro h
        unfold get_by_id at h
        rw [hf] at h
        exact Except.noConfusion (show Except.ok c = Except.error (notFoundMsg cid) from h)
      · intro hall
        have hp := List.find?_some hf
        have hmem := List.mem_of_find?_eq_some hf
        exact absurd (beq_iff_eq.mp hp) (hall c hmem)
    | none =>
      constructor
      · intro _ c hc heq
        exact (List.find?_eq_none.mp hf c hc) (beq_iff_eq.mpr heq)
      · intro _
        unfold get_by_id
        rw [hf]
  · intro s cid c h
    unfold get_by_id at h
    cases hf : s.clients.find? (fun c => c.client_id == some cid) with
    | some c2 =>
      rw [hf] at h
      have h' : Except.ok c2 = Except.ok c := h
      obtain rfl := Except.ok.inj h'
      have hp := @List.find?_some Client (fun c => c.client_id == some cid) c2
        s.clients hf
      exact ⟨List.mem_of_find?_eq_some hf, beq_iff_eq.mp hp⟩
    | none =>
      rw [hf] at h
      exact Except.noConfusion (show Except.error (notFoundMsg cid) = Except.ok c from h)
  · decide

/-- C7 witness: getById on the five-record state at identifier 2 yields a
member record carrying identifier 2. -/
theorem c7_witness : cFix 2 ∈ rep5.clients ∧ (cFix 2).client_id = some 2 :=
  c7_get_by_id.2.1 rep5 2 (cFix 2) (by decide)

/-- C8: from_string splits the line on the delimiter; whenever the split
does not yield exactly five fields the call fails with the wrong-field-count
message — for every input, so no per-field validation error can be reported
in that case; and whenever it succeeds, the constructed record's five data
fields are the five split fields, trimmed, in the fixed order surname, name,
patronymic, address, phone (with no identifier assigned). -/
theorem c8_from_string :
    (∀ (s : Str) (d : Char), (pySplit d s).length ≠ 5 →
        from_string s d = Except.error wrongCountMsg)
    ∧ (∀ (s : Str) (d : Char) (f1 f2 f3 f4 f5 : Str),
        pySplit d s = [f1, f2, f3, f4, f5] →
        ∀ c : Client, from_string s d = Except.ok c →
          c = Client.mk (pyStrip f1) (pyStrip f2) (pyStrip f3) (pyStrip f4)
                (pyStrip f5) none) := by
  constructor
  · intro s d hlen
    unfold from_string
    rcases hsplit : pySplit d s with _ | ⟨f1, _ | ⟨f2, _ | ⟨f3, _ | ⟨f4, _ | ⟨f5, _ | ⟨f6, rest⟩⟩⟩⟩⟩⟩
    all_goals first
      | rfl
      | (rw [hsplit] at hlen; simp at hlen)
  · intro s d f1 f2 f3 f4 f5 hsplit c h
    unfold from_string at h
    rw [hsplit] at h
    simp only [fromFields] at h
    cases h1 : validate_value (pyStrip f1) fnSurname true true none with
    | error m => rw [h1] at h; exact absurd (show Except.error m = Except.ok c from h) (by intro hc; exact Except.noConfusion hc)
    | ok v1 =>
      obtain rfl := (validate_value_ok _ _ _ _ _ _ h1).symm
      rw [h1] at h
      cases h2 : validate_value (pyStrip f2) fnName true true none with
      | error m => rw [h2] at h; exact absurd (show Except.error m = Except.ok c from h) (by intro hc; exact Except.noConfusion hc)
      | ok v2 =>
        obtain rfl := (validate_value_ok _ _ _ _ _ _ h2).symm
        rw [h2] at h
        cases h3 : validate_value (pyStrip f3) fnPatronymic false true none with
        | error m => rw [h3] at h; exact absurd (show Except.error m = Except.ok c from h) (by intro hc; exact Except.noConfusion hc)
        | ok v3 =>
          obtain rfl := (validate_value_ok _ _ _ _ _ _ h3).symm
          rw [h3] at h
          cases h4 : validate_value (pyStrip f4) fnAddress true false none with
          | error m => rw [h4] at h; exact absurd (show Except.error m = Except.ok c from h) (by intro hc; exact Except.noConfusion hc)
          | ok v4 =>
            obtain rfl := (validate_value_ok _ _ _ _ _ _ h4).symm
            rw [h4] at h
            cases h5 : validate_value (pyStrip f5) fnPhone true false (some phonePattern) with
            | error m => rw [h5] at h; exact absurd (show Except.error m = Except.ok c from h) (by intro hc; exact Except.noConfusion hc)
            | ok v5 =>
              obtain rfl := (validate_value_ok _ _ _ _ _ _ h5).symm
              rw [h5] at h
              exact mkClient_ok _ _ _ _ _ _ _ h

/-- C8 witness: the comma-separated scenario line parses into exactly the
five trimmed fields in order. -/
theorem c8_witness :
    Client.mk ivS ivN ivP ivA ivPh none
      = Client.mk (pyStrip (" Ivanov".toList)) (pyStrip ("Ivan".toList))
          (pyStrip ("Ivanovich".toList)) (pyStrip ("Main St 1".toList))
          (pyStrip ("+1-555-123-4567".toList)) none :=
  c8_from_string.2 (" Ivanov,Ivan,Ivanovich,Main St 1,+1-555-123-4567".toList) ','
    (" Ivanov".toList) ("Ivan".toList) ("Ivanovich".toList) ("Main St 1".toList)
    ("+1-555-123-4567".toList) (by decide)
    (Client.mk ivS ivN ivP ivA ivPh none) (by decide)

/-- C9: two records (of the richest Client variant, the one carrying an
identifier) are equal under the source's __eq__ iff all five data fields
match; the identifier plays no role — replacing either identifier by any
value leaves the comparison outcome unchanged. -/
theorem c9_equality (a b : Client) :
    (clientEqPy a b = true ↔
      (a.surname = b.surname ∧ a.name = b.name ∧ a.patronymic = b.patronymic
        ∧ a.address = b.address ∧ a.phone = b.phone))
    ∧ (∀ i j : Option Int,
        clientEqPy
            (Client.mk a.surname a.name a.patronymic a.address a.phone i)
            (Client.mk b.surname b.name b.patronymic b.address b.phone j)
          = clientEqPy a b) := by
  constructor
  · simp [clientEqPy, and_assoc]
  · intro i j
    rfl

/-- C10: whenever every active check passes, validate_value returns its
argument exactly unchanged — no trimming or normalization; in particular a
letters-only required value with leading, interior and trailing spaces
passes validation and the constructed record stores the spaced string
verbatim. -/
theorem c10_validate_verbatim :
    (∀ (v : Str) (fn : String) (req letters : Bool) (rx : Option Pattern)
        (w : Str), validate_value v fn req letters rx = Except.ok w → w = v)
    ∧ mkClient spacedStr ivN ivP ivA ivPh none
        = Except.ok (Client.mk spacedStr ivN ivP ivA ivPh none) :=
  ⟨validate_value_ok, by decide⟩

/-- C10 witness: the spaced value " Anna Maria " passes the required and
letters-only checks and comes back verbatim. -/
theorem c10_witness :
    validate_value spacedStr fnSurname true true none = Except.ok spacedStr
    ∧ spacedStr = spacedStr :=
  ⟨by decide, c10_validate_verbatim.1 spacedStr fnSurname true true none
    spacedStr (by decide)⟩

end CLL
